import Mathlib

/-!
# Care360 bot: booking-flow dispatchers

A shallow embedding of the Go sources `main.go` (the update loop body of
`startBot`), `booking/booking.go` (`HandleBooking`) and
`userdata/userdata.go` (`GetUserDataByID`), followed by theorems about them.

Conventions of the embedding:

* a Go `string` is its sequence of bytes (`GoString`); `len`, slicing and
  `strings.Split` act on bytes, exactly as in Go;
* a handler is a function from the inbound update and the answers of the
  outside world (upstream HTTP replies, the user file, the iteration order the
  runtime picks for a `map`) to an `Outcome`: the HTTP requests issued, the
  messages passed to `bot.Send`, both in program order, and whether the handler
  stopped with a run-time panic;
* the update is assumed to carry the chat and the sender that the handler
  dereferences; their identifiers are parameters.
-/

namespace Care360

/-! ## Strings -/

/-- A Go string: a finite sequence of bytes. -/
abbrev GoString := List UInt8

/-- The bytes of a string literal of the source (Go source text is UTF-8). -/
def utf8 (s : String) : GoString := s.data.flatMap String.utf8EncodeChar

/-- The byte of the separator used by every `strings.Split` call of the source. -/
def colon : UInt8 := 58

/-- Model of `strings.Split(s, sep)` for a one-byte separator (the source only
splits on a colon): the pieces of `s` between consecutive separator bytes, in
order. The result is never empty and `Split "" sep` is one empty string. -/
def Split (s : GoString) (sep : UInt8) : List GoString :=
  match s with
  | [] => [[]]
  | c :: rest =>
    if c = sep then [] :: Split rest sep
    else
      match Split rest sep with
      | [] => [[c]]
      | piece :: pieces => (c :: piece) :: pieces

/-- Model of the verb `%d` of `fmt.Sprintf` on an `int`: decimal digits, with a
leading minus sign for a negative number. -/
def fmtD (n : Int) : GoString := utf8 (toString n)

/-! ## Data model -/

/-- A Go `error` value, represented by its message. -/
abbrev GoError := GoString

/-- Element type of `DoctorData.Doctors`. -/
structure Doctor where
  UserID : Int
  ID : Int
  FirstName : GoString
  LastName : GoString
  SecondName : GoString
  Profession : GoString
deriving DecidableEq

/-- Element type of `DoctorData.Branches`. -/
structure Branch where
  ID : Int
  Name : GoString
  City : GoString
  Address : GoString
deriving DecidableEq

/-- Element type of `DoctorData.DoctorTimes`. -/
structure DoctorTime where
  Date : GoString
  TimeBegin : GoString
  TimeEnd : GoString
  DoctorID : Int
  BranchID : Int
deriving DecidableEq

/-- The decoded body of `GET /global/doctor_time` (`main.DoctorData`). -/
structure DoctorData where
  Doctors : List Doctor
  Branches : List Branch
  DoctorTimes : List DoctorTime
deriving DecidableEq

/-- The type `userdata.User`. -/
structure User where
  ID : Int
  Name : GoString
  Phone : GoString
deriving DecidableEq

/-- The type `booking.DoctorCategory`. -/
structure DoctorCategory where
  ID : Int
  Name : GoString
deriving DecidableEq

/-- The type `booking.DoctorAvailability`. -/
structure DoctorAvailability where
  Date : GoString
  Time : GoString
deriving DecidableEq

/-! ## Transport and upstream effects -/

/-- An inline button: `tgbotapi.NewInlineKeyboardButtonData(text, data)`. -/
structure InlineKeyboardButton where
  Text : GoString
  CallbackData : GoString
deriving DecidableEq

/-- The `ReplyMarkup` field of an outbound message. -/
inductive ReplyMarkup where
  | none
  | inlineKeyboard (rows : List (List InlineKeyboardButton))
  | replyKeyboard (rows : List (List GoString))
deriving DecidableEq

/-- An outbound message as built by `tgbotapi.NewMessage(chatID, text)`,
possibly with `ReplyMarkup` assigned afterwards. -/
structure MessageConfig where
  ChatID : Int
  Text : GoString
  Markup : ReplyMarkup
deriving DecidableEq

/-- `tgbotapi.NewMessage(chatID, text)`: a message without buttons. -/
def NewMessage (chatID : Int) (text : GoString) : MessageConfig :=
  { ChatID := chatID, Text := text, Markup := ReplyMarkup.none }

/-- A call of one of the fetch functions, each of which issues one HTTP GET
against the upstream API; the call is named by the path it requests. -/
inductive Request where
  | doctorTime
  | categories
  | availability (categoryID : Int)
  | timeslots (selectedDate : GoString)
deriving DecidableEq

/-- What one run of a handler did: the upstream requests it issued and the
messages it sent, in order, and whether it ended in a run-time panic. -/
structure Outcome where
  requests : List Request
  sent : List MessageConfig
  panicked : Bool
deriving DecidableEq

/-- The answers of the upstream API seen by `HandleBooking`. -/
structure Upstream where
  FetchDoctorCategories : Except GoError (List DoctorCategory)
  FetchDoctorAvailability : Int → Except GoError (List DoctorAvailability)
  FetchTimeSlots : GoString → Except GoError (List GoString)

/-! ## Go maps with string keys -/

/-- A `map[string]bool`, kept as its entries with pairwise distinct keys. -/
abbrev StringSet := List (GoString × Bool)

/-- The assignment `m[k] = v`. -/
def mapAssign (m : StringSet) (k : GoString) (v : Bool) : StringSet :=
  match m with
  | [] => [(k, v)]
  | (k0, v0) :: rest =>
    if k0 = k then (k, v) :: rest else (k0, v0) :: mapAssign rest k v

/-- The keys visited by `for key := range m`. Go leaves the order unspecified;
`order` is the choice the runtime makes (a rearrangement of the keys). -/
def mapRange (order : List GoString → List GoString) (m : StringSet) : List GoString :=
  order (m.map Prod.fst)

/-! ## `userdata.GetUserDataByID` -/

/-- Model of `GetUserDataByID(users, userID)`: the loop returns (a copy of) the
first element whose `ID` equals `userID`, and the error otherwise. -/
def GetUserDataByID (users : List User) (userID : Int) : Except GoError User :=
  match users with
  | [] => Except.error (utf8 "пользователь не найден")
  | user :: rest =>
    if user.ID = userID then Except.ok user else GetUserDataByID rest userID

/-! ## `startBot`: one iteration of the update loop -/

/-- The inbound update: a text message, a callback query, or neither. -/
inductive Update where
  | message (chatID : Int) (fromID : Int) (text : GoString)
  | callbackQuery (chatID : Int) (data : GoString)
  | other

/-- The outcome of an iteration that does nothing. -/
def idle : Outcome := { requests := [], sent := [], panicked := false }

/-- The outcome of an iteration that stops with a run-time panic after having
issued `requests` (nothing is sent on any panicking path of the source). -/
def panicAfter (requests : List Request) : Outcome :=
  { requests := requests, sent := [], panicked := true }

/-- The outcome of an iteration that issues `requests` and then sends `msg`. -/
def reply (requests : List Request) (msg : MessageConfig) : Outcome :=
  { requests := requests, sent := [msg], panicked := false }

/-- The branch `update.Message != nil` of the loop body of `startBot`: the
`switch update.Message.Text`. `fetchDoctorData` is the result of the call
`fetchDoctorData(apiURL)`, `LoadUserData` that of
`userdata.LoadUserData("name.json")`, and `order` the iteration order of maps. -/
def startBot_message (fetchDoctorData : Except GoError DoctorData)
    (LoadUserData : Except GoError (List User)) (order : List GoString → List GoString)
    (chatID fromID : Int) (text : GoString) : Outcome :=
  if text = utf8 "/start" then
    reply []
      { ChatID := chatID
        Text := utf8 "Добро пожаловать! Выберите действие:"
        Markup := ReplyMarkup.replyKeyboard
          [[utf8 "Записаться на приём", utf8 "Информация о клинике"], [utf8 "Личный кабинет"]] }
  else if text = utf8 "Записаться на приём" then
    match fetchDoctorData with
    | Except.error _ =>
      reply [Request.doctorTime]
        (NewMessage chatID (utf8 "Ошибка загрузки данных категорий. Пожалуйста, попробуйте позже."))
    | Except.ok data =>
      let categories : StringSet :=
        data.Doctors.foldl (fun m doctor => mapAssign m doctor.Profession true) []
      let rows : List (List InlineKeyboardButton) :=
        (mapRange order categories).foldl
          (fun rows category =>
            let callbackData := utf8 "category:" ++ category
            rows ++ [[{ Text := category, CallbackData := callbackData }]])
          []
      reply [Request.doctorTime]
        { ChatID := chatID
          Text := utf8 "Выберите категорию врачей:"
          Markup := ReplyMarkup.inlineKeyboard rows }
  else if text = utf8 "Информация о клинике" then
    match fetchDoctorData with
    | Except.error _ =>
      reply [Request.doctorTime] (NewMessage chatID (utf8 "Ошибка загрузки информации о филиалах."))
    | Except.ok data =>
      if data.Branches.length = 0 then
        reply [Request.doctorTime] (NewMessage chatID (utf8 "Филиалы клиники временно недоступны."))
      else
        let response : GoString :=
          data.Branches.foldl
            (fun response branch =>
              response ++ (branch.Name ++ utf8 ", " ++ branch.City ++ utf8 ", "
                ++ branch.Address ++ utf8 "\n"))
            (utf8 "Филиалы клиники:\n")
        reply [Request.doctorTime] (NewMessage chatID response)
  else if text = utf8 "Личный кабинет" then
    let userID := fromID
    match LoadUserData with
    | Except.error _ => reply [] (NewMessage chatID (utf8 "Ошибка загрузки данных пользователей."))
    | Except.ok users =>
      match GetUserDataByID users userID with
      | Except.ok user =>
        let response : GoString :=
          utf8 "Ваши данные:\nФИО: " ++ user.Name ++ utf8 "\nНомер: " ++ user.Phone
            ++ utf8 "\nID: " ++ fmtD user.ID
        reply [] (NewMessage chatID response)
      | Except.error _ => reply [] (NewMessage chatID (utf8 "Ваши данные не найдены."))
  else idle

/-- The branch `update.CallbackQuery != nil` of the loop body of `startBot`.
An index expression `splitData[i]` with `i` out of range is a run-time panic. -/
def startBot_callback (fetchDoctorData : Except GoError DoctorData)
    (order : List GoString → List GoString) (chatID : Int) (callbackData : GoString) :
    Outcome :=
  if callbackData ≠ [] then
    let splitData := Split callbackData colon
    match splitData[0]? with
    | none => panicAfter []
    | some tag =>
      if tag = utf8 "category" then
        match splitData[1]? with
        | none => panicAfter []
        | some category =>
          match fetchDoctorData with
          | Except.error _ =>
            reply [Request.doctorTime] (NewMessage chatID (utf8 "Ошибка загрузки данных о датах."))
          | Except.ok data =>
            let availableDates : StringSet :=
              data.DoctorTimes.foldl (fun m time => mapAssign m time.Date true) []
            let rows : List (List InlineKeyboardButton) :=
              (mapRange order availableDates).foldl
                (fun rows date =>
                  let callbackData := utf8 "date:" ++ category ++ utf8 ":" ++ date
                  rows ++ [[{ Text := date, CallbackData := callbackData }]])
                []
            reply [Request.doctorTime]
              { ChatID := chatID
                Text := utf8 "Выберите дату:"
                Markup := ReplyMarkup.inlineKeyboard rows }
      else if tag = utf8 "date" then
        match splitData[1]? with
        | none => panicAfter []
        | some category =>
          match splitData[2]? with
          | none => panicAfter []
          | some date =>
            match fetchDoctorData with
            | Except.error _ =>
              reply [Request.doctorTime]
                (NewMessage chatID (utf8 "Ошибка загрузки данных о времени."))
            | Except.ok data =>
              let timeSlots : List GoString :=
                data.DoctorTimes.foldl
                  (fun timeSlots time =>
                    if time.Date = date then
                      timeSlots ++ [time.TimeBegin ++ utf8 " - " ++ time.TimeEnd]
                    else timeSlots)
                  []
              let rows : List (List InlineKeyboardButton) :=
                timeSlots.foldl
                  (fun rows slot =>
                    let callbackData :=
                      utf8 "time:" ++ category ++ utf8 ":" ++ date ++ utf8 ":" ++ slot
                    rows ++ [[{ Text := slot, CallbackData := callbackData }]])
                  []
              reply [Request.doctorTime]
                { ChatID := chatID
                  Text := utf8 "Выберите время:"
                  Markup := ReplyMarkup.inlineKeyboard rows }
      else if tag = utf8 "time" then
        match splitData[1]? with
        | none => panicAfter []
        | some category =>
          match splitData[2]? with
          | none => panicAfter []
          | some date =>
            match splitData[3]? with
            | none => panicAfter []
            | some time =>
              let confirmation : GoString :=
                utf8 "Вы выбрали категорию: " ++ category ++ utf8 ", дату: " ++ date
                  ++ utf8 ", время: " ++ time
              reply [] (NewMessage chatID confirmation)
      else idle
  else idle

/-- One iteration of `for update := range updates` in `startBot`. -/
def startBot (fetchDoctorData : Except GoError DoctorData)
    (LoadUserData : Except GoError (List User)) (order : List GoString → List GoString)
    (update : Update) : Outcome :=
  match update with
  | Update.message chatID fromID text =>
    startBot_message fetchDoctorData LoadUserData order chatID fromID text
  | Update.callbackQuery chatID data => startBot_callback fetchDoctorData order chatID data
  | Update.other => idle

/-! ## `booking.HandleBooking` -/

/-- The slice expression `s[:hi]`; `none` is the run-time panic of a bound
beyond `len(s)`. -/
def sliceTo (s : GoString) (hi : Nat) : Option GoString :=
  if hi ≤ s.length then some (s.take hi) else none

/-- The slice expression `s[lo:]`; `none` is the run-time panic of a bound
beyond `len(s)`. -/
def sliceFrom (s : GoString) (lo : Nat) : Option GoString :=
  if lo ≤ s.length then some (s.drop lo) else none

/-- White space skipped by the scanner of package `fmt` (`SkipSpace` of a scan
started by `Sscanf`, where a newline is not white space but an error): the
input after the leading run of space runes, `none` when a newline is met. The
space runes are U+0009, U+000B to U+000D, U+0020, U+0085, U+00A0, U+1680,
U+2000 to U+200A, U+2028, U+2029, U+202F, U+205F and U+3000, here in UTF-8. -/
def SkipSpace (s : GoString) : Option GoString :=
  match s with
  | [] => some []
  | b0 :: rest =>
    if b0 = 0x0A then none
    else if b0 = 0x09 ∨ b0 = 0x0B ∨ b0 = 0x0C ∨ b0 = 0x0D ∨ b0 = 0x20 then SkipSpace rest
    else
      match rest with
      | [] => some (b0 :: rest)
      | b1 :: rest1 =>
        if b0 = 0xC2 ∧ (b1 = 0x85 ∨ b1 = 0xA0) then SkipSpace rest1
        else
          match rest1 with
          | [] => some (b0 :: rest)
          | b2 :: rest2 =>
            if (b0 = 0xE1 ∧ b1 = 0x9A ∧ b2 = 0x80)
                ∨ (b0 = 0xE2 ∧ b1 = 0x80
                    ∧ ((0x80 ≤ b2 ∧ b2 ≤ 0x8A) ∨ b2 = 0xA8 ∨ b2 = 0xA9 ∨ b2 = 0xAF))
                ∨ (b0 = 0xE2 ∧ b1 = 0x81 ∧ b2 = 0x9F)
                ∨ (b0 = 0xE3 ∧ b1 = 0x80 ∧ b2 = 0x80) then SkipSpace rest2
            else some (b0 :: rest)

/-- The bytes accepted by the scanner for the verb `%d`: the decimal digits. -/
def isDecimalDigit (b : UInt8) : Bool := 48 ≤ b && b ≤ 57

/-- Model of `fmt.Sscanf(str, "%d", &v)` for `v` of type `int`: the value stored
in `v`, or `none` when the scan fails and leaves `v` as it was. The scanner
skips leading white space, accepts one sign (`+` or `-`), takes the longest run
of decimal digits, which must not be empty, and converts the token with
`strconv.ParseInt(tok, 10, 64)`, which fails on a value outside the 64-bit
range; input after the number is left unread. -/
def Sscanf_d (str : GoString) : Option Int :=
  match SkipSpace str with
  | none => none
  | some input =>
    let signed : Bool × GoString :=
      match input with
      | [] => (false, [])
      | b :: rest =>
        if b = 43 then (false, rest) else if b = 45 then (true, rest) else (false, input)
    let tok := signed.2.takeWhile isDecimalDigit
    if tok = [] then none
    else
      let un : Nat := tok.foldl (fun n b => n * 10 + (b.toNat - 48)) 0
      if signed.1 then
        if un > 2 ^ 63 then none else some (-(un : Int))
      else
        if un ≥ 2 ^ 63 then none else some (un : Int)

/-- The four cases of the `switch` of `HandleBooking`. -/
inductive BookingCase where
  | selectCategory
  | category
  | date
  | default
deriving DecidableEq

/-- The case conditions of the `switch` of `HandleBooking`, tried in order with
the short-circuit `&&` of the source; `none` is a slice out of range. -/
def HandleBooking_case (data : GoString) : Option BookingCase :=
  if data = utf8 "select_category" then some BookingCase.selectCategory
  else
    let isCategory : Option Bool :=
      if data.length > 9 then (sliceTo data 9).map (fun p => decide (p = utf8 "category:"))
      else some false
    match isCategory with
    | none => none
    | some true => some BookingCase.category
    | some false =>
      let isDate : Option Bool :=
        if data.length > 5 then (sliceTo data 5).map (fun p => decide (p = utf8 "date:"))
        else some false
      match isDate with
      | none => none
      | some true => some BookingCase.date
      | some false => some BookingCase.default

/-- Model of `HandleBooking(bot, update, apiURL)` for the callback data `data`
of the update, against the upstream answers `api`. -/
def HandleBooking (api : Upstream) (chatID : Int) (data : GoString) : Outcome :=
  match HandleBooking_case data with
  | none => panicAfter []
  | some BookingCase.selectCategory =>
    match api.FetchDoctorCategories with
    | Except.error _ =>
      reply [Request.categories] (NewMessage chatID (utf8 "Ошибка загрузки категорий врачей."))
    | Except.ok categories =>
      let rows : List (List InlineKeyboardButton) :=
        categories.foldl
          (fun rows category =>
            rows ++ [[{ Text := category.Name
                        CallbackData := utf8 "category:" ++ fmtD category.ID }]])
          []
      reply [Request.categories]
        { ChatID := chatID
          Text := utf8 "Выберите категорию врача:"
          Markup := ReplyMarkup.inlineKeyboard rows }
  | some BookingCase.category =>
    match sliceFrom data 9 with
    | none => panicAfter []
    | some tail =>
      let categoryID : Int := (Sscanf_d tail).getD 0
      match api.FetchDoctorAvailability categoryID with
      | Except.error _ =>
        reply [Request.availability categoryID]
          (NewMessage chatID (utf8 "Ошибка загрузки доступного времени."))
      | Except.ok availability =>
        let rows : List (List InlineKeyboardButton) :=
          availability.foldl
            (fun rows slot =>
              rows ++ [[{ Text := slot.Date, CallbackData := utf8 "date:" ++ slot.Date }]])
            []
        reply [Request.availability categoryID]
          { ChatID := chatID
            Text := utf8 "Выберите дату приёма:"
            Markup := ReplyMarkup.inlineKeyboard rows }
  | some BookingCase.date =>
    match sliceFrom data 5 with
    | none => panicAfter []
    | some selectedDate =>
      match api.FetchTimeSlots selectedDate with
      | Except.error _ =>
        reply [Request.timeslots selectedDate]
          (NewMessage chatID (utf8 "Ошибка загрузки времени для выбранной даты."))
      | Except.ok timeSlots =>
        let rows : List (List InlineKeyboardButton) :=
          timeSlots.foldl
            (fun rows time =>
              rows ++ [[{ Text := time, CallbackData := utf8 "time:" ++ time }]])
            []
        reply [Request.timeslots selectedDate]
          { ChatID := chatID
            Text := utf8 "Доступное время для " ++ selectedDate ++ utf8 ":"
            Markup := ReplyMarkup.inlineKeyboard rows }
  | some BookingCase.default =>
    reply [] (NewMessage chatID (utf8 "Ошибка: действие не распознано. Попробуйте снова."))

/-! ## Data of the scenarios of the specification -/

/-- The doctors of scenario 1 of the specification. -/
def scenarioDoctors : List Doctor :=
  [ { UserID := 1, ID := 1, FirstName := [], LastName := [], SecondName := [],
      Profession := utf8 "Cardiology" },
    { UserID := 2, ID := 2, FirstName := [], LastName := [], SecondName := [],
      Profession := utf8 "Dermatology" },
    { UserID := 3, ID := 3, FirstName := [], LastName := [], SecondName := [],
      Profession := utf8 "Cardiology" } ]

/-- The schedule of scenario 2 of the specification, with a record on another
day in between. -/
def scenarioTimes : List DoctorTime :=
  [ { Date := utf8 "2024-05-01", TimeBegin := utf8 "09:00", TimeEnd := utf8 "09:30",
      DoctorID := 1, BranchID := 1 },
    { Date := utf8 "2024-05-02", TimeBegin := utf8 "09:00", TimeEnd := utf8 "09:30",
      DoctorID := 1, BranchID := 1 },
    { Date := utf8 "2024-05-01", TimeBegin := utf8 "10:00", TimeEnd := utf8 "10:30",
      DoctorID := 2, BranchID := 1 } ]

/-! ## Lemmas on splitting and on the loops -/

theorem Split_ne_nil (s : GoString) (sep : UInt8) : Split s sep ≠ [] := by
  cases s with
  | nil => simp [Split]
  | cons c rest =>
    unfold Split
    split
    · simp
    · split <;> simp

/-- The pieces of `Split`, joined by the separator, give the string back. -/
theorem Split_intercalate (s : GoString) (sep : UInt8) :
    List.intercalate [sep] (Split s sep) = s := by
  induction s with
  | nil => simp [Split, List.intercalate]
  | cons c rest ih =>
    unfold Split
    by_cases hc : c = sep
    · rw [if_pos hc]
      cases hs : Split rest sep with
      | nil => exact absurd hs (Split_ne_nil _ _)
      | cons piece pieces =>
        rw [hs] at ih
        rw [← ih, hc]
        simp [List.intercalate, List.intersperse]
    · rw [if_neg hc]
      cases hs : Split rest sep with
      | nil => exact absurd hs (Split_ne_nil _ _)
      | cons piece pieces =>
        rw [hs] at ih
        rw [← ih]
        cases pieces <;> simp [List.intercalate, List.intersperse]

/-- No piece of `Split` contains the separator. -/
theorem Split_no_sep (s : GoString) (sep : UInt8) : ∀ piece ∈ Split s sep, sep ∉ piece := by
  induction s with
  | nil => simp [Split]
  | cons c rest ih =>
    unfold Split
    by_cases hc : c = sep
    · rw [if_pos hc]
      intro piece hp
      rcases List.mem_cons.mp hp with rfl | hp
      · simp
      · exact ih piece hp
    · rw [if_neg hc]
      cases hs : Split rest sep with
      | nil => exact absurd hs (Split_ne_nil _ _)
      | cons piece0 pieces =>
        rw [hs] at ih
        intro piece hp
        rcases List.mem_cons.mp hp with rfl | hp
        · intro hmem
          rcases List.mem_cons.mp hmem with h | h
          · exact hc h.symm
          · exact ih piece0 (by simp) h
        · exact ih piece (by simp [hp])

/-- The number of pieces of `Split` is one more than the number of separators. -/
theorem Split_length (s : GoString) (sep : UInt8) :
    (Split s sep).length = s.count sep + 1 := by
  induction s with
  | nil => simp [Split]
  | cons c rest ih =>
    unfold Split
    by_cases hc : c = sep
    · rw [if_pos hc, hc]
      simp [ih]
    · rw [if_neg hc]
      cases hs : Split rest sep with
      | nil => exact absurd hs (Split_ne_nil _ _)
      | cons piece0 pieces =>
        rw [hs] at ih
        rw [List.count_cons_of_ne (fun e => hc e.symm)]
        simpa using ih

theorem Split_of_not_mem (sep : UInt8) (a : GoString) (h : sep ∉ a) : Split a sep = [a] := by
  induction a with
  | nil => simp [Split]
  | cons c rest ih =>
    have hc : c ≠ sep := fun e => h (by simp [e])
    have hr : sep ∉ rest := fun e => h (by simp [e])
    simp [Split, hc, ih hr]

theorem Split_append_sep (sep : UInt8) (a b : GoString) (h : sep ∉ a) :
    Split (a ++ sep :: b) sep = a :: Split b sep := by
  induction a with
  | nil => simp [Split]
  | cons c rest ih =>
    have hc : c ≠ sep := fun e => h (by simp [e])
    have hr : sep ∉ rest := fun e => h (by simp [e])
    simp [Split, hc, ih hr]

theorem foldl_append_singleton {α β : Type} (g : α → β) (l : List α) (init : List β) :
    l.foldl (fun acc x => acc ++ [g x]) init = init ++ l.map g := by
  induction l generalizing init with
  | nil => simp
  | cons x xs ih => simp [ih]

theorem foldl_append_if {α β : Type} (p : α → Prop) [DecidablePred p] (g : α → β)
    (l : List α) (init : List β) :
    l.foldl (fun acc x => if p x then acc ++ [g x] else acc) init
      = init ++ (l.filter (fun x => decide (p x))).map g := by
  induction l generalizing init with
  | nil => simp
  | cons x xs ih =>
    by_cases hx : p x <;> simp [hx, ih]

/-! ## The callback dispatcher of `startBot` -/

theorem utf8_colon : utf8 ":" = [colon] := by decide

/-- The shape of the pieces of a payload `tag:a`. -/
theorem Split_two (tag a : GoString) (ht : colon ∉ tag) (ha : colon ∉ a) :
    Split (tag ++ colon :: a) colon = [tag, a] := by
  rw [Split_append_sep colon tag _ ht, Split_of_not_mem colon a ha]

/-- The shape of the pieces of a payload `tag:a:b`. -/
theorem Split_three (tag a b : GoString) (ht : colon ∉ tag) (ha : colon ∉ a)
    (hb : colon ∉ b) :
    Split (tag ++ colon :: (a ++ colon :: b)) colon = [tag, a, b] := by
  rw [Split_append_sep colon tag _ ht, Split_two a b ha hb]

/-- C3. For a payload `date:<category>:<date>` with exactly three colon-separated
segments (neither value contains a colon) and every upstream `doctor_times`
list, the callback dispatcher of `startBot` issues one doctor-times query and
sends `Выберите время:` with one single-button row per record whose `Date`
equals `<date>`, in upstream order, labelled `<time_begin> - <time_end>` with
payload `time:<category>:<date>:<time_begin> - <time_end>`. -/
theorem startBot_callback_date (data : DoctorData) (order : List GoString → List GoString)
    (chatID : Int) (category date : GoString)
    (hc : colon ∉ category) (hd : colon ∉ date) :
    startBot_callback (Except.ok data) order chatID
        (utf8 "date:" ++ category ++ utf8 ":" ++ date)
      = reply [Request.doctorTime]
          { ChatID := chatID
            Text := utf8 "Выберите время:"
            Markup := ReplyMarkup.inlineKeyboard
              ((data.DoctorTimes.filter (fun t => decide (t.Date = date))).map
                (fun t =>
                  [{ Text := t.TimeBegin ++ utf8 " - " ++ t.TimeEnd
                     CallbackData := utf8 "time:" ++ category ++ utf8 ":" ++ date
                       ++ utf8 ":" ++ (t.TimeBegin ++ utf8 " - " ++ t.TimeEnd) }])) } := by
  have e : utf8 "date:" ++ category ++ utf8 ":" ++ date
      = utf8 "date" ++ colon :: (category ++ colon :: date) := by
    have h1 : utf8 "date:" = utf8 "date" ++ [colon] := by decide
    rw [h1, utf8_colon]; simp
  have hne : utf8 "date:" ++ category ++ utf8 ":" ++ date ≠ [] := by
    rw [e]; exact List.append_ne_nil_of_right_ne_nil _ (List.cons_ne_nil _ _)
  have ht : colon ∉ utf8 "date" := by decide
  have hs := Split_three (utf8 "date") category date ht hc hd
  have t1 : utf8 "date" ≠ utf8 "category" := by decide
  unfold startBot_callback
  rw [if_pos hne]
  simp only [e, hs, List.getElem?_cons_zero, List.getElem?_cons_succ, if_neg t1, if_true]
  rw [foldl_append_if (fun t : DoctorTime => t.Date = date)
        (fun t => t.TimeBegin ++ utf8 " - " ++ t.TimeEnd), foldl_append_singleton]
  simp [List.map_map, Function.comp_def]

/-- Scenario 2 of the specification, by `startBot_callback_date`. -/
theorem startBot_callback_date_witness :
    colon ∉ utf8 "Cardiology" ∧ colon ∉ utf8 "2024-05-01" ∧
    startBot_callback
        (Except.ok
          { Doctors := [], Branches := []
            DoctorTimes :=
              [ { Date := utf8 "2024-05-01", TimeBegin := utf8 "09:00", TimeEnd := utf8 "09:30"
                  DoctorID := 1, BranchID := 1 },
                { Date := utf8 "2024-05-02", TimeBegin := utf8 "09:00", TimeEnd := utf8 "09:30"
                  DoctorID := 1, BranchID := 1 },
                { Date := utf8 "2024-05-01", TimeBegin := utf8 "10:00", TimeEnd := utf8 "10:30"
                  DoctorID := 2, BranchID := 1 } ] })
        id 7 (utf8 "date:Cardiology:2024-05-01")
      = reply [Request.doctorTime]
          { ChatID := 7
            Text := utf8 "Выберите время:"
            Markup := ReplyMarkup.inlineKeyboard
              [ [{ Text := utf8 "09:00 - 09:30"
                   CallbackData := utf8 "time:Cardiology:2024-05-01:09:00 - 09:30" }],
                [{ Text := utf8 "10:00 - 10:30"
                   CallbackData := utf8 "time:Cardiology:2024-05-01:10:00 - 10:30" }] ] } :=
  ⟨by decide, by decide,
    (startBot_callback_date _ id 7 (utf8 "Cardiology") (utf8 "2024-05-01")
      (by decide) (by decide)).trans (by decide)⟩

/-! ## Maps: the keys collected by a loop of assignments -/

theorem mapAssign_keys (m : StringSet) (k : GoString) (v : Bool) :
    (mapAssign m k v).map Prod.fst
      = if k ∈ m.map Prod.fst then m.map Prod.fst else m.map Prod.fst ++ [k] := by
  induction m with
  | nil => simp [mapAssign]
  | cons e rest ih =>
    obtain ⟨k0, v0⟩ := e
    by_cases h : k0 = k
    · subst h
      simp [mapAssign]
    · have h2 : ¬ k = k0 := fun e => h e.symm
      by_cases hm : k ∈ rest.map Prod.fst
      · simp only [mapAssign, if_neg h, List.map_cons, ih, if_pos hm]
        simp [hm]
      · simp only [mapAssign, if_neg h, List.map_cons, ih, if_neg hm]
        simp [h2, hm]

theorem mapAssign_nodup (m : StringSet) (k : GoString) (v : Bool)
    (h : (m.map Prod.fst).Nodup) : ((mapAssign m k v).map Prod.fst).Nodup := by
  rw [mapAssign_keys]
  split
  · exact h
  · rename_i hk
    rw [List.nodup_append]
    refine ⟨h, List.nodup_singleton k, ?_⟩
    intro a ha hb
    simp only [List.mem_singleton] at hb
    subst hb
    exact hk ha

theorem mapAssign_mem (m : StringSet) (k : GoString) (v : Bool) (x : GoString) :
    x ∈ (mapAssign m k v).map Prod.fst ↔ x ∈ m.map Prod.fst ∨ x = k := by
  rw [mapAssign_keys]
  split
  · rename_i hk
    constructor
    · exact fun h => Or.inl h
    · rintro (h | h)
      · exact h
      · subst h; exact hk
  · simp

theorem collect_nodup {α : Type} (f : α → GoString) (l : List α) (init : StringSet)
    (h : (init.map Prod.fst).Nodup) :
    ((l.foldl (fun m x => mapAssign m (f x) true) init).map Prod.fst).Nodup := by
  induction l generalizing init with
  | nil => simpa using h
  | cons x xs ih => exact ih _ (mapAssign_nodup init (f x) true h)

theorem collect_mem {α : Type} (f : α → GoString) (l : List α) (init : StringSet)
    (k : GoString) :
    k ∈ (l.foldl (fun m x => mapAssign m (f x) true) init).map Prod.fst
      ↔ k ∈ init.map Prod.fst ∨ k ∈ l.map f := by
  induction l generalizing init with
  | nil => simp
  | cons x xs ih =>
    rw [List.foldl_cons, ih, mapAssign_mem]
    simp only [List.map_cons, List.mem_cons]
    tauto

/-- The keys visited by a `range` over the map filled from `l` are, for any
iteration order, the distinct values of `f` on `l`, each visited once. -/
theorem mapRange_collect {α : Type} (f : α → GoString) (l : List α)
    (order : List GoString → List GoString) (horder : ∀ ks, (order ks).Perm ks) :
    (mapRange order (l.foldl (fun m x => mapAssign m (f x) true) [])).Nodup
      ∧ (mapRange order (l.foldl (fun m x => mapAssign m (f x) true) [])).length
          = (l.map f).toFinset.card
      ∧ ∀ k, k ∈ mapRange order (l.foldl (fun m x => mapAssign m (f x) true) [])
          ↔ k ∈ l.map f := by
  have hp := horder ((l.foldl (fun m x => mapAssign m (f x) true) []).map Prod.fst)
  have hn := collect_nodup f l [] (by simp)
  have hm : ∀ k, k ∈ (l.foldl (fun m x => mapAssign m (f x) true) []).map Prod.fst
      ↔ k ∈ l.map f := by
    intro k
    rw [collect_mem]
    simp
  refine ⟨?_, ?_, ?_⟩
  · exact hp.nodup_iff.mpr hn
  · unfold mapRange
    rw [hp.length_eq, ← List.toFinset_card_of_nodup hn]
    congr 1
    ext k
    simp only [List.mem_toFinset]
    exact hm k
  · intro k
    unfold mapRange
    rw [hp.mem_iff]
    exact hm k

/-- The rows built by a loop appending one single-button row per visited key are,
for any iteration order, a rearrangement of the rows of the distinct keys. -/
theorem rows_of_range {α : Type} (f : α → GoString) (l : List α)
    (mk : GoString → InlineKeyboardButton) (hmk : ∀ a b, mk a = mk b → a = b)
    (order : List GoString → List GoString) (horder : ∀ ks, (order ks).Perm ks) :
    ∃ rows : List (List InlineKeyboardButton),
      (mapRange order (l.foldl (fun m x => mapAssign m (f x) true) [])).foldl
          (fun rows key => rows ++ [[mk key]]) [] = rows
      ∧ rows.Perm ((l.map f).dedup.map (fun key => [mk key]))
      ∧ rows.Nodup
      ∧ rows.length = (l.map f).toFinset.card
      ∧ ∀ b, [b] ∈ rows ↔ ∃ x ∈ l, b = mk (f x) := by
  obtain ⟨hn, hl, hm⟩ := mapRange_collect f l order horder
  refine ⟨_, rfl, ?_⟩
  rw [foldl_append_singleton]
  simp only [List.nil_append]
  have hinj : Function.Injective (fun key : GoString => [mk key]) := by
    intro a b hab
    simp only [List.cons.injEq, and_true] at hab
    exact hmk a b hab
  refine ⟨?_, ?_, ?_, ?_⟩
  · apply List.Perm.map
    rw [List.perm_ext_iff_of_nodup hn (List.nodup_dedup _)]
    intro k
    rw [hm k, List.mem_dedup]
  · exact hn.map hinj
  · rw [List.length_map, hl]
  · intro b
    simp only [List.mem_map, List.cons.injEq, and_true]
    constructor
    · rintro ⟨k, hk, rfl⟩
      obtain ⟨x, hx, rfl⟩ := List.mem_map.mp ((hm k).mp hk)
      exact ⟨x, hx, rfl⟩
    · rintro ⟨x, hx, rfl⟩
      exact ⟨f x, (hm (f x)).mpr (List.mem_map.mpr ⟨x, hx, rfl⟩), rfl⟩

/-- C4. For every upstream doctors list and any iteration order of the map, the
command `Записаться на приём` issues one doctor-times query and sends
`Выберите категорию врачей:` with single-button rows that are a rearrangement of
one button `(p, category:p)` per distinct profession `p`: no row is repeated,
the number of rows is the number of distinct professions, and a button occurs
exactly when it is `(p, category:p)` for the profession `p` of some doctor. -/
theorem startBot_message_book (data : DoctorData) (LoadUserData : Except GoError (List User))
    (order : List GoString → List GoString) (chatID fromID : Int)
    (horder : ∀ ks, (order ks).Perm ks) :
    ∃ rows : List (List InlineKeyboardButton),
      startBot_message (Except.ok data) LoadUserData order chatID fromID
          (utf8 "Записаться на приём")
        = reply [Request.doctorTime]
            { ChatID := chatID
              Text := utf8 "Выберите категорию врачей:"
              Markup := ReplyMarkup.inlineKeyboard rows }
      ∧ rows.Perm (((data.Doctors.map Doctor.Profession).dedup).map
          (fun p => [{ Text := p, CallbackData := utf8 "category:" ++ p }]))
      ∧ rows.Nodup
      ∧ rows.length = (data.Doctors.map Doctor.Profession).toFinset.card
      ∧ ∀ b, [b] ∈ rows ↔
          ∃ d ∈ data.Doctors,
            b = { Text := d.Profession, CallbackData := utf8 "category:" ++ d.Profession } := by
  obtain ⟨rows, hrows, h1, h2, h3, h4⟩ :=
    rows_of_range Doctor.Profession data.Doctors
      (fun p => { Text := p, CallbackData := utf8 "category:" ++ p })
      (by intro a b hab; simp only [InlineKeyboardButton.mk.injEq] at hab; exact hab.1)
      order horder
  refine ⟨rows, ?_, h1, h2, h3, h4⟩
  have t1 : utf8 "Записаться на приём" ≠ utf8 "/start" := by decide
  unfold startBot_message
  rw [if_neg t1, if_pos rfl]
  simp only
  rw [hrows]

/-- Scenario 1 of the specification, with the map iterated in reverse order of
insertion, by `startBot_message_book`. -/
theorem startBot_message_book_witness :
    (∀ ks : List GoString, (List.reverse ks).Perm ks) ∧
    ∃ rows : List (List InlineKeyboardButton),
      startBot_message
          (Except.ok { Doctors := scenarioDoctors, Branches := [], DoctorTimes := [] })
          (Except.ok []) List.reverse 7 9 (utf8 "Записаться на приём")
        = reply [Request.doctorTime]
            { ChatID := 7
              Text := utf8 "Выберите категорию врачей:"
              Markup := ReplyMarkup.inlineKeyboard rows }
      ∧ rows.Perm (((scenarioDoctors.map Doctor.Profession).dedup).map
          (fun p => [{ Text := p, CallbackData := utf8 "category:" ++ p }]))
      ∧ rows.Nodup
      ∧ rows.length = (scenarioDoctors.map Doctor.Profession).toFinset.card
      ∧ ∀ b, [b] ∈ rows ↔
          ∃ d ∈ scenarioDoctors,
            b = { Text := d.Profession, CallbackData := utf8 "category:" ++ d.Profession } :=
  ⟨fun ks => List.reverse_perm ks,
    startBot_message_book { Doctors := scenarioDoctors, Branches := [], DoctorTimes := [] }
      (Except.ok []) List.reverse 7 9 (fun ks => List.reverse_perm ks)⟩

/-- Scenario 1 of the specification evaluated: whichever of the two orders the
runtime picks, exactly the two buttons of the distinct professions are sent. -/
theorem startBot_message_book_scenario :
    startBot_message
        (Except.ok { Doctors := scenarioDoctors, Branches := [], DoctorTimes := [] })
        (Except.ok []) id 7 9 (utf8 "Записаться на приём")
      = reply [Request.doctorTime]
          { ChatID := 7
            Text := utf8 "Выберите категорию врачей:"
            Markup := ReplyMarkup.inlineKeyboard
              [ [{ Text := utf8 "Cardiology", CallbackData := utf8 "category:Cardiology" }],
                [{ Text := utf8 "Dermatology", CallbackData := utf8 "category:Dermatology" }] ] }
    ∧ startBot_message
        (Except.ok { Doctors := scenarioDoctors, Branches := [], DoctorTimes := [] })
        (Except.ok []) List.reverse 7 9 (utf8 "Записаться на приём")
      = reply [Request.doctorTime]
          { ChatID := 7
            Text := utf8 "Выберите категорию врачей:"
            Markup := ReplyMarkup.inlineKeyboard
              [ [{ Text := utf8 "Dermatology", CallbackData := utf8 "category:Dermatology" }],
                [{ Text := utf8 "Cardiology", CallbackData := utf8 "category:Cardiology" }] ] } := by
  constructor <;> decide

/-- C5. For a payload `category:<s>` with exactly two colon-separated segments
(`s` contains no colon; whether or not `s` reads as an integer), every upstream
`doctor_times` list and any iteration order of the map, the callback dispatcher
of `startBot` issues exactly one doctor-times query and sends `Выберите дату:`
with single-button rows that are a rearrangement of one button
`(date, date:<s>:<date>)` per distinct `Date` value: no row is repeated, the
number of rows is the number of distinct dates, and a button occurs exactly
when it is `(date, date:<s>:<date>)` for the `Date` of some record. -/
theorem startBot_callback_category (data : DoctorData) (order : List GoString → List GoString)
    (chatID : Int) (s : GoString) (hs : colon ∉ s) (horder : ∀ ks, (order ks).Perm ks) :
    ∃ rows : List (List InlineKeyboardButton),
      startBot_callback (Except.ok data) order chatID (utf8 "category:" ++ s)
        = reply [Request.doctorTime]
            { ChatID := chatID
              Text := utf8 "Выберите дату:"
              Markup := ReplyMarkup.inlineKeyboard rows }
      ∧ rows.Perm (((data.DoctorTimes.map DoctorTime.Date).dedup).map
          (fun date =>
            [{ Text := date, CallbackData := utf8 "date:" ++ s ++ utf8 ":" ++ date }]))
      ∧ rows.Nodup
      ∧ rows.length = (data.DoctorTimes.map DoctorTime.Date).toFinset.card
      ∧ ∀ b, [b] ∈ rows ↔
          ∃ t ∈ data.DoctorTimes,
            b = { Text := t.Date, CallbackData := utf8 "date:" ++ s ++ utf8 ":" ++ t.Date } := by
  obtain ⟨rows, hrows, h1, h2, h3, h4⟩ :=
    rows_of_range DoctorTime.Date data.DoctorTimes
      (fun date => { Text := date, CallbackData := utf8 "date:" ++ s ++ utf8 ":" ++ date })
      (by intro a b hab; simp only [InlineKeyboardButton.mk.injEq] at hab; exact hab.1)
      order horder
  refine ⟨rows, ?_, h1, h2, h3, h4⟩
  have e : utf8 "category:" ++ s = utf8 "category" ++ colon :: s := by
    have h1 : utf8 "category:" = utf8 "category" ++ [colon] := by decide
    rw [h1]; simp
  have hne : utf8 "category:" ++ s ≠ [] := by
    rw [e]; exact List.append_ne_nil_of_right_ne_nil _ (List.cons_ne_nil _ _)
  have ht : colon ∉ utf8 "category" := by decide
  have hsp := Split_two (utf8 "category") s ht hs
  unfold startBot_callback
  rw [if_pos hne]
  simp only [e, hsp, List.getElem?_cons_zero, List.getElem?_cons_succ, if_true]
  rw [hrows]

/-- The payload `category:Cardiology` against three records on two dates, with
the map iterated in reverse order of insertion, by `startBot_callback_category`. -/
theorem startBot_callback_category_witness :
    colon ∉ utf8 "Cardiology" ∧ (∀ ks : List GoString, (List.reverse ks).Perm ks) ∧
    ∃ rows : List (List InlineKeyboardButton),
      startBot_callback (Except.ok { Doctors := [], Branches := [], DoctorTimes := scenarioTimes })
          List.reverse 7 (utf8 "category:" ++ utf8 "Cardiology")
        = reply [Request.doctorTime]
            { ChatID := 7
              Text := utf8 "Выберите дату:"
              Markup := ReplyMarkup.inlineKeyboard rows }
      ∧ rows.Perm (((scenarioTimes.map DoctorTime.Date).dedup).map
          (fun date =>
            [{ Text := date
               CallbackData := utf8 "date:" ++ utf8 "Cardiology" ++ utf8 ":" ++ date }]))
      ∧ rows.Nodup
      ∧ rows.length = (scenarioTimes.map DoctorTime.Date).toFinset.card
      ∧ ∀ b, [b] ∈ rows ↔
          ∃ t ∈ scenarioTimes,
            b = { Text := t.Date
                  CallbackData := utf8 "date:" ++ utf8 "Cardiology" ++ utf8 ":" ++ t.Date } :=
  ⟨by decide, fun ks => List.reverse_perm ks,
    startBot_callback_category { Doctors := [], Branches := [], DoctorTimes := scenarioTimes }
      List.reverse 7 (utf8 "Cardiology") (by decide) (fun ks => List.reverse_perm ks)⟩

/-- C1 (the code at the failing inputs). On the payloads `category`, `date:x` and
`time:a:b`, which have fewer segments than their first segment needs, the
callback dispatcher of `startBot` evaluates an index expression out of range:
the iteration ends in a run-time panic, having issued no upstream request and
sent no message (in particular not the not-recognized text). -/
theorem startBot_callback_short_payload_panics (fetchDoctorData : Except GoError DoctorData)
    (order : List GoString → List GoString) (chatID : Int) :
    startBot_callback fetchDoctorData order chatID (utf8 "category") = panicAfter []
    ∧ startBot_callback fetchDoctorData order chatID (utf8 "date:x") = panicAfter []
    ∧ startBot_callback fetchDoctorData order chatID (utf8 "time:a:b") = panicAfter []
    ∧ (panicAfter []).panicked = true
    ∧ (panicAfter []).sent = [] := by
  refine ⟨?_, ?_, ?_, rfl, rfl⟩ <;> rfl

/-- Every payload with a first segment `time` and at least four segments is
answered by the confirmation built from the segments at index 1, 2 and 3; the
segments after them are dropped. -/
theorem startBot_callback_time (fetchDoctorData : Except GoError DoctorData)
    (order : List GoString → List GoString) (chatID : Int)
    (category date time : GoString) (more : List GoString) (callbackData : GoString)
    (hne : callbackData ≠ [])
    (hsplit : Split callbackData colon = utf8 "time" :: category :: date :: time :: more) :
    startBot_callback fetchDoctorData order chatID callbackData
      = reply []
          (NewMessage chatID
            (utf8 "Вы выбрали категорию: " ++ category ++ utf8 ", дату: " ++ date
              ++ utf8 ", время: " ++ time)) := by
  have t1 : utf8 "time" ≠ utf8 "category" := by decide
  have t2 : utf8 "time" ≠ utf8 "date" := by decide
  unfold startBot_callback
  rw [if_pos hne]
  simp only [hsplit, List.getElem?_cons_zero, List.getElem?_cons_succ, if_neg t1, if_neg t2,
    if_true]

/-- C2 (the code at the failing input). On the payload
`time:Cardiology:2024-05-01:09:00 - 09:30` the callback dispatcher of `startBot`
sends a confirmation whose time is cut at the first colon of the time range,
`Вы выбрали категорию: Cardiology, дату: 2024-05-01, время: 09`, which is not
the text with the whole range `09:00 - 09:30`. -/
theorem startBot_callback_time_range_truncated (fetchDoctorData : Except GoError DoctorData)
    (order : List GoString → List GoString) (chatID : Int) :
    startBot_callback fetchDoctorData order chatID
        (utf8 "time:Cardiology:2024-05-01:09:00 - 09:30")
      = reply []
          (NewMessage chatID
            (utf8 "Вы выбрали категорию: Cardiology, дату: 2024-05-01, время: 09"))
    ∧ utf8 "Вы выбрали категорию: Cardiology, дату: 2024-05-01, время: 09"
      ≠ utf8 "Вы выбрали категорию: Cardiology, дату: 2024-05-01, время: 09:00 - 09:30" := by
  refine ⟨?_, by decide⟩
  have h := startBot_callback_time fetchDoctorData order chatID (utf8 "Cardiology")
    (utf8 "2024-05-01") (utf8 "09") [utf8 "00 - 09", utf8 "30"]
    (utf8 "time:Cardiology:2024-05-01:09:00 - 09:30") (by decide) (by decide)
  rw [h]
  have e : utf8 "Вы выбрали категорию: " ++ utf8 "Cardiology" ++ utf8 ", дату: "
      ++ utf8 "2024-05-01" ++ utf8 ", время: " ++ utf8 "09"
      = utf8 "Вы выбрали категорию: Cardiology, дату: 2024-05-01, время: 09" := by decide
  rw [e]

/-- A payload whose first segment is none of `category`, `date` and `time`
matches no case of the `switch` of the callback dispatcher of `startBot`, which
has no default case: nothing is requested and nothing is sent. -/
theorem startBot_callback_unknown (fetchDoctorData : Except GoError DoctorData)
    (order : List GoString → List GoString) (chatID : Int) (callbackData : GoString)
    (h1 : (Split callbackData colon)[0]? ≠ some (utf8 "category"))
    (h2 : (Split callbackData colon)[0]? ≠ some (utf8 "date"))
    (h3 : (Split callbackData colon)[0]? ≠ some (utf8 "time")) :
    startBot_callback fetchDoctorData order chatID callbackData = idle := by
  unfold startBot_callback
  split
  · simp only
    cases hs : Split callbackData colon with
    | nil => exact absurd hs (Split_ne_nil _ _)
    | cons tag pieces =>
      rw [hs] at h1 h2 h3
      simp only [List.getElem?_cons_zero, ne_eq, Option.some.injEq] at h1 h2 h3
      simp only [List.getElem?_cons_zero, if_neg h1, if_neg h2, if_neg h3]
  · rfl

/-- Data that meets none of the first three case conditions of `HandleBooking`
is answered by the not-recognized text, with no upstream request. -/
theorem HandleBooking_default (api : Upstream) (chatID : Int) (data : GoString)
    (h : HandleBooking_case data = some BookingCase.default) :
    HandleBooking api chatID data
      = reply [] (NewMessage chatID (utf8 "Ошибка: действие не распознано. Попробуйте снова.")) := by
  unfold HandleBooking
  rw [h]

/-- C7 (the code at the failing input). On the payload `bogus:xyz`,
`HandleBooking` sends exactly the not-recognized text and issues no upstream
request, whereas the callback dispatcher of `startBot` issues no upstream
request and sends nothing at all. -/
theorem bogus_payload (api : Upstream) (fetchDoctorData : Except GoError DoctorData)
    (order : List GoString → List GoString) (chatID : Int) :
    HandleBooking api chatID (utf8 "bogus:xyz")
      = reply [] (NewMessage chatID (utf8 "Ошибка: действие не распознано. Попробуйте снова."))
    ∧ startBot_callback fetchDoctorData order chatID (utf8 "bogus:xyz") = idle
    ∧ idle.sent = [] ∧ idle.requests = [] := by
  refine ⟨HandleBooking_default api chatID _ (by decide), ?_, rfl, rfl⟩
  exact startBot_callback_unknown fetchDoctorData order chatID _
    (by decide) (by decide) (by decide)

/-! ## Scanning back a formatted integer -/

/-- The byte of the decimal digit `k`. -/
theorem utf8EncodeChar_digitChar (k : Nat) (hk : k < 10) :
    String.utf8EncodeChar (Nat.digitChar k) = [UInt8.ofNat (48 + k)] := by
  interval_cases k <;> decide

theorem isDecimalDigit_digit (k : Nat) (hk : k < 10) :
    isDecimalDigit (UInt8.ofNat (48 + k)) = true := by
  interval_cases k <;> decide

theorem digit_value (k : Nat) (hk : k < 10) : (UInt8.ofNat (48 + k)).toNat - 48 = k := by
  interval_cases k <;> decide

/-- The digits written by `Nat.toDigitsCore` with enough fuel: a non-empty run of
digit bytes whose value, read from the left, is `n`. -/
theorem toDigitsCore_bytes (fuel : Nat) :
    ∀ (n : Nat) (ds : List Char), n < fuel →
      ∃ ks : List Nat, ks ≠ [] ∧ (∀ k ∈ ks, k < 10)
        ∧ (Nat.toDigitsCore 10 fuel n ds).flatMap String.utf8EncodeChar
            = ks.map (fun k => UInt8.ofNat (48 + k)) ++ ds.flatMap String.utf8EncodeChar
        ∧ ∀ a : Nat, ks.foldl (fun acc k => acc * 10 + k) a = a * 10 ^ ks.length + n := by
  induction fuel with
  | zero => intro n ds h; omega
  | succ fuel ih =>
    intro n ds h
    have hd : n % 10 < 10 := Nat.mod_lt n (by decide)
    rw [Nat.toDigitsCore]
    by_cases h0 : n / 10 = 0
    · refine ⟨[n % 10], by simp, by simpa using hd, ?_, ?_⟩
      · simp [h0, utf8EncodeChar_digitChar _ hd]
      · intro a
        have : n % 10 = n := Nat.mod_eq_of_lt (by omega)
        simp [this]
    · have hlt : n / 10 < fuel := by omega
      obtain ⟨ks, hne, hks, hbytes, hval⟩ := ih (n / 10) (Nat.digitChar (n % 10) :: ds) hlt
      refine ⟨ks ++ [n % 10], by simp, ?_, ?_, ?_⟩
      · intro k hk
        rcases List.mem_append.mp hk with hk | hk
        · exact hks k hk
        · simp only [List.mem_singleton] at hk; omega
      · simp only [h0, if_false, hbytes, List.flatMap_cons, utf8EncodeChar_digitChar _ hd,
          List.map_append, List.map_cons, List.map_nil, List.append_assoc, List.singleton_append]
      · intro a
        rw [List.foldl_append, hval a]
        simp only [List.foldl_cons, List.foldl_nil, List.length_append, List.length_singleton]
        rw [pow_succ]
        have := Nat.div_add_mod n 10
        nlinarith [this]

/-- The bytes of the decimal form of a natural number. -/
theorem utf8_toString_nat (n : Nat) :
    ∃ ks : List Nat, ks ≠ [] ∧ (∀ k ∈ ks, k < 10)
      ∧ utf8 (toString n) = ks.map (fun k => UInt8.ofNat (48 + k))
      ∧ ks.foldl (fun acc k => acc * 10 + k) 0 = n := by
  obtain ⟨ks, hne, hks, hbytes, hval⟩ := toDigitsCore_bytes (n + 1) n [] (Nat.lt_succ_self n)
  refine ⟨ks, hne, hks, ?_, by simpa using hval 0⟩
  have : utf8 (toString n) = (Nat.toDigitsCore 10 (n + 1) n []).flatMap String.utf8EncodeChar :=
    rfl
  rw [this, hbytes]
  simp

/-- A run of digit bytes is taken whole by the scanner and read as its value. -/
theorem scan_digits (ks : List Nat) (hks : ∀ k ∈ ks, k < 10) :
    (ks.map (fun k => UInt8.ofNat (48 + k))).takeWhile isDecimalDigit
        = ks.map (fun k => UInt8.ofNat (48 + k))
    ∧ ∀ a : Nat, (ks.map (fun k => UInt8.ofNat (48 + k))).foldl
          (fun n b => n * 10 + (b.toNat - 48)) a
        = ks.foldl (fun acc k => acc * 10 + k) a := by
  constructor
  · rw [List.takeWhile_eq_self_iff]
    intro b hb
    obtain ⟨k, hk, rfl⟩ := List.mem_map.mp hb
    exact isDecimalDigit_digit k (hks k hk)
  · induction ks with
    | nil => intro a; rfl
    | cons k ks ih =>
      intro a
      have hk : k < 10 := hks k (by simp)
      simp only [List.map_cons, List.foldl_cons, digit_value k hk]
      exact ih (fun j hj => hks j (by simp [hj])) _

/-- No white space is skipped in front of a digit. -/
theorem SkipSpace_digit (k : Nat) (hk : k < 10) (rest : GoString) :
    SkipSpace (UInt8.ofNat (48 + k) :: rest) = some (UInt8.ofNat (48 + k) :: rest) := by
  interval_cases k <;> rcases rest with _ | ⟨b1, _ | ⟨b2, rest2⟩⟩ <;> simp [SkipSpace]

/-- No white space is skipped in front of a minus sign. -/
theorem SkipSpace_minus (rest : GoString) : SkipSpace (45 :: rest) = some (45 :: rest) := by
  rcases rest with _ | ⟨b1, _ | ⟨b2, rest2⟩⟩ <;> simp [SkipSpace]

/-- Round trip: the `%d` scan reads the `%d` form of every 64-bit integer back. -/
theorem Sscanf_d_fmtD (n : Int) (hlo : -(2 ^ 63) ≤ n) (hhi : n < 2 ^ 63) :
    Sscanf_d (fmtD n) = some n := by
  cases n with
  | ofNat m =>
    obtain ⟨ks, hne, hks, hbytes, hval⟩ := utf8_toString_nat m
    have hf : fmtD (Int.ofNat m) = ks.map (fun k => UInt8.ofNat (48 + k)) := hbytes
    obtain ⟨k0, ks0, rfl⟩ := List.exists_cons_of_ne_nil hne
    have hk0 : k0 < 10 := hks k0 (by simp)
    obtain ⟨htake, hfold⟩ := scan_digits (k0 :: ks0) hks
    have hm : ¬ (m ≥ 2 ^ 63) := by
      have h := hhi
      simp only [Int.ofNat_eq_coe] at h
      have h2 : (m : Int) < ((2 ^ 63 : Nat) : Int) := by exact_mod_cast h
      have h3 : m < 2 ^ 63 := by exact_mod_cast h2
      omega
    have h43 : UInt8.ofNat (48 + k0) ≠ 43 := by interval_cases k0 <;> decide
    have h45 : UInt8.ofNat (48 + k0) ≠ 45 := by interval_cases k0 <;> decide
    rw [hf]
    unfold Sscanf_d
    simp only [List.map_cons, SkipSpace_digit k0 hk0, if_neg h43, if_neg h45]
    simp only [List.map_cons] at htake hfold
    rw [htake, hfold 0, hval, if_neg (List.cons_ne_nil _ _)]
    simp only [Bool.false_eq_true, if_false]
    rw [if_neg hm]
    rfl
  | negSucc m =>
    obtain ⟨ks, hne, hks, hbytes, hval⟩ := utf8_toString_nat (m + 1)
    have hf : fmtD (Int.negSucc m) = 45 :: ks.map (fun k => UInt8.ofNat (48 + k)) := by
      rw [← hbytes]; rfl
    obtain ⟨htake, hfold⟩ := scan_digits ks hks
    have hm : ¬ (m + 1 > 2 ^ 63) := by
      have h : -(2 ^ 63 : Int) ≤ -((m : Int) + 1) := by rw [← Int.negSucc_eq]; exact hlo
      have h2 : ((m + 1 : Nat) : Int) ≤ ((2 ^ 63 : Nat) : Int) := by push_cast; linarith
      have h3 : m + 1 ≤ 2 ^ 63 := by exact_mod_cast h2
      omega
    have hne2 : ks.map (fun k => UInt8.ofNat (48 + k)) ≠ [] := by simpa using hne
    have e43 : ¬ ((45 : UInt8) = 43) := by decide
    rw [hf]
    unfold Sscanf_d
    simp only [SkipSpace_minus, if_neg e43, if_true, htake, hfold 0, hval, if_neg hne2]
    rw [if_neg hm, Int.negSucc_eq]
    push_cast
    rfl

/-! ## `category:<id>`: which upstream query is issued -/

theorem Sscanf_d_nil : Sscanf_d [] = none := by decide

theorem HandleBooking_case_category (s : GoString) (hs : s ≠ []) :
    HandleBooking_case (utf8 "category:" ++ s) = some BookingCase.category := by
  have e : utf8 "category:" = [99, 97, 116, 101, 103, 111, 114, 121, 58] := by decide
  have e2 : utf8 "select_category"
      = [115, 101, 108, 101, 99, 116, 95, 99, 97, 116, 101, 103, 111, 114, 121] := by decide
  obtain ⟨b, rest, rfl⟩ := List.exists_cons_of_ne_nil hs
  unfold HandleBooking_case sliceTo
  rw [e, e2]
  simp

theorem sliceFrom_category (s : GoString) :
    sliceFrom (utf8 "category:" ++ s) 9 = some s := by
  have e : utf8 "category:" = [99, 97, 116, 101, 103, 111, 114, 121, 58] := by decide
  unfold sliceFrom
  rw [e]
  simp

/-- The requests of a `category:` payload in `HandleBooking`: one availability
request carrying the scanned number, or 0 when the scan fails. -/
theorem HandleBooking_category_requests (api : Upstream) (chatID : Int) (s : GoString)
    (hs : s ≠ []) :
    (HandleBooking api chatID (utf8 "category:" ++ s)).requests
      = [Request.availability ((Sscanf_d s).getD 0)] := by
  unfold HandleBooking
  rw [HandleBooking_case_category s hs]
  simp only [sliceFrom_category]
  split <;> rfl

/-- The requests of a `category:` payload in the callback dispatcher of
`startBot`: one doctor-times request, whatever follows the colon. -/
theorem startBot_callback_category_requests (fetchDoctorData : Except GoError DoctorData)
    (order : List GoString → List GoString) (chatID : Int) (s : GoString) :
    (startBot_callback fetchDoctorData order chatID (utf8 "category:" ++ s)).requests
      = [Request.doctorTime] := by
  have e : utf8 "category:" ++ s = utf8 "category" ++ colon :: s := by
    have h1 : utf8 "category:" = utf8 "category" ++ [colon] := by decide
    rw [h1]; simp
  have hne : utf8 "category:" ++ s ≠ [] := by
    rw [e]; exact List.append_ne_nil_of_right_ne_nil _ (List.cons_ne_nil _ _)
  have ht : colon ∉ utf8 "category" := by decide
  have hsp := Split_append_sep colon (utf8 "category") s ht
  unfold startBot_callback
  rw [if_pos hne]
  simp only [e, hsp, List.getElem?_cons_zero, List.getElem?_cons_succ, if_true]
  cases hq : Split s colon with
  | nil => exact absurd hq (Split_ne_nil _ _)
  | cons piece pieces =>
    simp only [List.getElem?_cons_zero]
    split <;> rfl

/-- The payloads `category:%d` that the `select_category` case of
`HandleBooking` builds are read back: for every 64-bit category id `n`, the
payload `category:<n>` makes `HandleBooking` issue one availability request
carrying `n`. -/
theorem HandleBooking_category_fmtD (api : Upstream) (chatID : Int) (n : Int)
    (hlo : -(2 ^ 63) ≤ n) (hhi : n < 2 ^ 63) :
    (HandleBooking api chatID (utf8 "category:" ++ fmtD n)).requests
      = [Request.availability n] := by
  have h := Sscanf_d_fmtD n hlo hhi
  have hs : fmtD n ≠ [] := by
    intro e
    rw [e, Sscanf_d_nil] at h
    exact Option.noConfusion h
  rw [HandleBooking_category_requests api chatID _ hs, h]
  rfl

/-- C6 (the code at the failing input). The payload `category:5`, whose `5` the
`%d` scan reads as the integer 5, makes the callback dispatcher of `startBot`
issue exactly one doctor-times request and no availability request, for every
upstream answer, whereas `HandleBooking` issues at the same payload exactly one
availability request carrying 5 and no doctor-times request. -/
theorem category_id_payload (api : Upstream) (fetchDoctorData : Except GoError DoctorData)
    (order : List GoString → List GoString) (chatID : Int) :
    Sscanf_d (utf8 "5") = some 5
    ∧ (startBot_callback fetchDoctorData order chatID (utf8 "category:5")).requests
        = [Request.doctorTime]
    ∧ Request.availability 5
        ∉ (startBot_callback fetchDoctorData order chatID (utf8 "category:5")).requests
    ∧ (HandleBooking api chatID (utf8 "category:5")).requests = [Request.availability 5]
    ∧ Request.doctorTime ∉ (HandleBooking api chatID (utf8 "category:5")).requests := by
  have h1 : (startBot_callback fetchDoctorData order chatID (utf8 "category:5")).requests
      = [Request.doctorTime] :=
    startBot_callback_category_requests fetchDoctorData order chatID (utf8 "5")
  have h2 : (HandleBooking api chatID (utf8 "category:5")).requests
      = [Request.availability 5] :=
    HandleBooking_category_fmtD api chatID 5 (by decide) (by decide)
  refine ⟨by decide, h1, ?_, h2, ?_⟩
  · rw [h1]; decide
  · rw [h2]; decide

/-! ## Clinic information and the personal cabinet -/

/-- C8. For every upstream branches list, the command `Информация о клинике`
issues one doctor-times query and sends one message without buttons: the fixed
text `Филиалы клиники временно недоступны.` when the list is empty, and
otherwise the header `Филиалы клиники:` followed by one line
`<name>, <city>, <address>` per branch, in upstream order (as many lines as
branches). The fixed text is neither empty, nor the bare header, nor the text
sent when the fetch fails. -/
theorem startBot_message_clinic_info (data : DoctorData)
    (LoadUserData : Except GoError (List User)) (order : List GoString → List GoString)
    (chatID fromID : Int) :
    startBot_message (Except.ok data) LoadUserData order chatID fromID
        (utf8 "Информация о клинике")
      = reply [Request.doctorTime]
          (NewMessage chatID
            (if data.Branches = [] then utf8 "Филиалы клиники временно недоступны."
             else utf8 "Филиалы клиники:\n"
               ++ (data.Branches.map
                    (fun b => b.Name ++ utf8 ", " ++ b.City ++ utf8 ", " ++ b.Address
                      ++ utf8 "\n")).flatten))
    ∧ (data.Branches.map
          (fun b => b.Name ++ utf8 ", " ++ b.City ++ utf8 ", " ++ b.Address
            ++ utf8 "\n")).length = data.Branches.length
    ∧ utf8 "Филиалы клиники временно недоступны." ≠ []
    ∧ utf8 "Филиалы клиники временно недоступны." ≠ utf8 "Филиалы клиники:\n"
    ∧ utf8 "Филиалы клиники временно недоступны."
        ≠ utf8 "Ошибка загрузки информации о филиалах." := by
  refine ⟨?_, by simp, by decide, by decide, by decide⟩
  have t1 : utf8 "Информация о клинике" ≠ utf8 "/start" := by decide
  have t2 : utf8 "Информация о клинике" ≠ utf8 "Записаться на приём" := by decide
  have hfold : ∀ (l : List Branch) (init : GoString),
      l.foldl (fun response branch =>
          response ++ (branch.Name ++ utf8 ", " ++ branch.City ++ utf8 ", "
            ++ branch.Address ++ utf8 "\n")) init
        = init ++ (l.map (fun b => b.Name ++ utf8 ", " ++ b.City ++ utf8 ", " ++ b.Address
            ++ utf8 "\n")).flatten := by
    intro l
    induction l with
    | nil => intro init; simp
    | cons b bs ih =>
      intro init
      rw [List.foldl_cons, ih, List.map_cons, List.flatten_cons, List.append_assoc]
  unfold startBot_message
  rw [if_neg t1, if_neg t2, if_pos rfl]
  simp only [List.length_eq_zero]
  by_cases hb : data.Branches = []
  · rw [if_pos hb, if_pos hb]
  · rw [if_neg hb, if_neg hb, hfold]

/-- The first element of `users` whose `ID` is `userID`, if any. -/
theorem GetUserDataByID_eq_find (users : List User) (userID : Int) :
    GetUserDataByID users userID
      = match users.find? (fun u => decide (u.ID = userID)) with
        | some user => Except.ok user
        | none => Except.error (utf8 "пользователь не найден") := by
  induction users with
  | nil => simp [GetUserDataByID]
  | cons user rest ih =>
    by_cases h : user.ID = userID
    · simp [GetUserDataByID, h]
    · simp [GetUserDataByID, h, ih]

/-- C9. For every user list and every `userID`: `GetUserDataByID` returns the
first list element whose `ID` equals `userID` when there is one, and the
not-found error otherwise; so it returns a user exactly when some user of the
list has that `ID`, any user it returns is an element of the list with
`ID = userID`, and it returns the error exactly when no element has that `ID`.
The command `Личный кабинет` then sends one message without buttons and issues
no upstream request: the profile of the returned user, or the text
`Ваши данные не найдены.` on the error. -/
theorem GetUserDataByID_spec (users : List User) (userID : Int)
    (fetchDoctorData : Except GoError DoctorData) (order : List GoString → List GoString)
    (chatID : Int) :
    GetUserDataByID users userID
      = (match users.find? (fun u => decide (u.ID = userID)) with
         | some user => Except.ok user
         | none => Except.error (utf8 "пользователь не найден"))
    ∧ ((∃ user, GetUserDataByID users userID = Except.ok user)
        ↔ ∃ u ∈ users, u.ID = userID)
    ∧ (∀ user, GetUserDataByID users userID = Except.ok user →
        user.ID = userID ∧ user ∈ users)
    ∧ (GetUserDataByID users userID = Except.error (utf8 "пользователь не найден")
        ↔ ¬ ∃ u ∈ users, u.ID = userID)
    ∧ startBot_message fetchDoctorData (Except.ok users) order chatID userID
          (utf8 "Личный кабинет")
        = (match users.find? (fun u => decide (u.ID = userID)) with
           | some user =>
             reply []
               (NewMessage chatID
                 (utf8 "Ваши данные:\nФИО: " ++ user.Name ++ utf8 "\nНомер: " ++ user.Phone
                   ++ utf8 "\nID: " ++ fmtD user.ID))
           | none => reply [] (NewMessage chatID (utf8 "Ваши данные не найдены."))) := by
  have hfind := GetUserDataByID_eq_find users userID
  have t1 : utf8 "Личный кабинет" ≠ utf8 "/start" := by decide
  have t2 : utf8 "Личный кабинет" ≠ utf8 "Записаться на приём" := by decide
  have t3 : utf8 "Личный кабинет" ≠ utf8 "Информация о клинике" := by decide
  refine ⟨hfind, ?_, ?_, ?_, ?_⟩
  · rw [hfind]
    cases hf : users.find? (fun u => decide (u.ID = userID)) with
    | none =>
      simp only [exists_false, false_iff, reduceCtorEq]
      rintro ⟨u, hu, hid⟩
      have := List.find?_eq_none.mp hf u hu
      simp [hid] at this
    | some user =>
      simp only [Except.ok.injEq, exists_eq', true_iff]
      exact ⟨user, List.mem_of_find?_eq_some hf, by simpa using List.find?_some hf⟩
  · intro user hu
    rw [hfind] at hu
    cases hf : users.find? (fun u => decide (u.ID = userID)) with
    | none => rw [hf] at hu; simp at hu
    | some user0 =>
      rw [hf] at hu
      simp only [Except.ok.injEq] at hu
      subst hu
      exact ⟨by simpa using List.find?_some hf, List.mem_of_find?_eq_some hf⟩
  · rw [hfind]
    cases hf : users.find? (fun u => decide (u.ID = userID)) with
    | none =>
      simp only [true_iff]
      rintro ⟨u, hu, hid⟩
      have := List.find?_eq_none.mp hf u hu
      simp [hid] at this
    | some user =>
      simp only [reduceCtorEq, false_iff, not_not]
      exact ⟨user, List.mem_of_find?_eq_some hf, by simpa using List.find?_some hf⟩
  · unfold startBot_message
    rw [if_neg t1, if_neg t2, if_neg t3, if_pos rfl]
    simp only [hfind]
    cases users.find? (fun u => decide (u.ID = userID)) <;> rfl

/-! ## `HandleBooking`: case selection and totality -/

/-- The case `HandleBooking` selects: the slices of the case conditions are
never out of range, so a case is always selected, and it is the first whose
condition holds. -/
theorem HandleBooking_case_eq (data : GoString) :
    HandleBooking_case data
      = some
          (if data = utf8 "select_category" then BookingCase.selectCategory
           else if 9 < data.length ∧ data.take 9 = utf8 "category:" then BookingCase.category
           else if 5 < data.length ∧ data.take 5 = utf8 "date:" then BookingCase.date
           else BookingCase.default) := by
  unfold HandleBooking_case sliceTo
  by_cases h0 : data = utf8 "select_category"
  · rw [if_pos h0, if_pos h0]
  · rw [if_neg h0, if_neg h0]
    by_cases h9 : 9 < data.length
    · by_cases hp : data.take 9 = utf8 "category:"
      · simp [h9, hp, Nat.le_of_lt h9]
      · by_cases h5 : 5 < data.length
        · by_cases hq : data.take 5 = utf8 "date:"
          · simp [h9, hp, Nat.le_of_lt h9, h5, hq, Nat.le_of_lt h5]
          · simp [h9, hp, Nat.le_of_lt h9, h5, hq, Nat.le_of_lt h5]
        · simp [h9, hp, Nat.le_of_lt h9, h5]
    · by_cases h5 : 5 < data.length
      · by_cases hq : data.take 5 = utf8 "date:"
        · simp [h9, h5, hq, Nat.le_of_lt h5]
        · simp [h9, h5, hq, Nat.le_of_lt h5]
      · simp [h9, h5]

/-- C10. For every callback data string and every upstream answer,
`HandleBooking` selects one case of its `switch` (the first whose condition
holds, the default otherwise) with the slices `data[:9]`, `data[9:]`,
`data[:5]` and `data[5:]` in range wherever they are evaluated, so it never
panics; it sends exactly one message and issues at most one upstream request.
The empty string and the bare `category:` and `date:` select the default case:
the not-recognized text and no upstream request. -/
theorem HandleBooking_total (api : Upstream) (chatID : Int) (data : GoString) :
    HandleBooking_case data
      = some
          (if data = utf8 "select_category" then BookingCase.selectCategory
           else if 9 < data.length ∧ data.take 9 = utf8 "category:" then BookingCase.category
           else if 5 < data.length ∧ data.take 5 = utf8 "date:" then BookingCase.date
           else BookingCase.default)
    ∧ (HandleBooking api chatID data).panicked = false
    ∧ (HandleBooking api chatID data).sent.length = 1
    ∧ (HandleBooking api chatID data).requests.length ≤ 1
    ∧ HandleBooking api chatID (utf8 "category:")
        = reply [] (NewMessage chatID (utf8 "Ошибка: действие не распознано. Попробуйте снова."))
    ∧ HandleBooking api chatID (utf8 "date:")
        = reply [] (NewMessage chatID (utf8 "Ошибка: действие не распознано. Попробуйте снова."))
    ∧ HandleBooking api chatID (utf8 "")
        = reply [] (NewMessage chatID (utf8 "Ошибка: действие не распознано. Попробуйте снова.")) := by
  have key : (HandleBooking api chatID data).panicked = false
      ∧ (HandleBooking api chatID data).sent.length = 1
      ∧ (HandleBooking api chatID data).requests.length ≤ 1 := by
    unfold HandleBooking
    rw [HandleBooking_case_eq data]
    by_cases h0 : data = utf8 "select_category"
    · rw [if_pos h0]
      simp only
      split <;> simp [reply]
    · rw [if_neg h0]
      by_cases h9 : 9 < data.length ∧ data.take 9 = utf8 "category:"
      · rw [if_pos h9]
        simp only [sliceFrom, if_pos (Nat.le_of_lt h9.1)]
        split <;> simp [reply]
      · rw [if_neg h9]
        by_cases h5 : 5 < data.length ∧ data.take 5 = utf8 "date:"
        · rw [if_pos h5]
          simp only [sliceFrom, if_pos (Nat.le_of_lt h5.1)]
          split <;> simp [reply]
        · rw [if_neg h5]
          simp [reply]
  exact ⟨HandleBooking_case_eq data, key.1, key.2.1, key.2.2,
    HandleBooking_default api chatID (utf8 "category:") (by decide),
    HandleBooking_default api chatID (utf8 "date:") (by decide),
    HandleBooking_default api chatID (utf8 "") (by decide)⟩

/-! ## Further facts on the callback dispatcher of `startBot` -/

/-- Every non-empty payload whose first segment is `category`, `date` or `time`
and which has fewer segments than the case reads (2, 3 and 4) ends in the
run-time panic of an index out of range, before any request or message. -/
theorem startBot_callback_short_payload (fetchDoctorData : Except GoError DoctorData)
    (order : List GoString → List GoString) (chatID : Int) (callbackData : GoString)
    (hne : callbackData ≠ [])
    (h : ((Split callbackData colon)[0]? = some (utf8 "category")
            ∧ (Split callbackData colon).length < 2)
        ∨ ((Split callbackData colon)[0]? = some (utf8 "date")
            ∧ (Split callbackData colon).length < 3)
        ∨ ((Split callbackData colon)[0]? = some (utf8 "time")
            ∧ (Split callbackData colon).length < 4)) :
    startBot_callback fetchDoctorData order chatID callbackData = panicAfter [] := by
  have t1 : utf8 "date" ≠ utf8 "category" := by decide
  have t2 : utf8 "time" ≠ utf8 "category" := by decide
  have t3 : utf8 "time" ≠ utf8 "date" := by decide
  unfold startBot_callback
  rw [if_pos hne]
  simp only
  rcases h with ⟨h0, hl⟩ | ⟨h0, hl⟩ | ⟨h0, hl⟩
  · rw [h0]
    have h1 : (Split callbackData colon)[1]? = none := List.getElem?_eq_none (by omega)
    simp only [if_true, h1]
  · rw [h0]
    simp only [if_neg t1, if_true]
    cases h1 : (Split callbackData colon)[1]? with
    | none => rfl
    | some category =>
      have h2 : (Split callbackData colon)[2]? = none := List.getElem?_eq_none (by omega)
      simp only [h2]
  · rw [h0]
    simp only [if_neg t2, if_neg t3, if_true]
    cases h1 : (Split callbackData colon)[1]? with
    | none => rfl
    | some category =>
      cases h2 : (Split callbackData colon)[2]? with
      | none => rfl
      | some date =>
        have h3 : (Split callbackData colon)[3]? = none := List.getElem?_eq_none (by omega)
        simp only [h3]

/-- When none of the three values contains a colon, the payload
`time:<category>:<date>:<time>` is answered by the confirmation with the three
values verbatim. -/
theorem startBot_callback_time_colon_free (fetchDoctorData : Except GoError DoctorData)
    (order : List GoString → List GoString) (chatID : Int) (category date time : GoString)
    (hc : colon ∉ category) (hd : colon ∉ date) (ht : colon ∉ time) :
    startBot_callback fetchDoctorData order chatID
        (utf8 "time:" ++ category ++ utf8 ":" ++ date ++ utf8 ":" ++ time)
      = reply []
          (NewMessage chatID
            (utf8 "Вы выбрали категорию: " ++ category ++ utf8 ", дату: " ++ date
              ++ utf8 ", время: " ++ time)) := by
  have e : utf8 "time:" ++ category ++ utf8 ":" ++ date ++ utf8 ":" ++ time
      = utf8 "time" ++ colon :: (category ++ colon :: (date ++ colon :: time)) := by
    have h1 : utf8 "time:" = utf8 "time" ++ [colon] := by decide
    rw [h1, utf8_colon]; simp
  have hne : utf8 "time:" ++ category ++ utf8 ":" ++ date ++ utf8 ":" ++ time ≠ [] := by
    rw [e]; exact List.append_ne_nil_of_right_ne_nil _ (List.cons_ne_nil _ _)
  have hs : Split (utf8 "time:" ++ category ++ utf8 ":" ++ date ++ utf8 ":" ++ time) colon
      = utf8 "time" :: category :: date :: time :: [] := by
    rw [e, Split_append_sep colon (utf8 "time") _ (by decide), Split_three category date time hc hd ht]
  exact startBot_callback_time fetchDoctorData order chatID category date time [] _ hne hs

end Care360
